import Mathlib

/-!
Shallow embedding of the labor_exchange job-board core:
the authentication dependency (src/applications/dependencies/user.py)
and the job route handlers (src/api/routers/job_router.py).

The repository layer (RepoJob), the token codec (decode_token), the
bearer extractor (JWTBearer) and the user lookup (get_by_email) are not
part of the given sources; they are modelled from the specification
(sections 4.1, 4.2, 4.4) and marked as such in their doc comments.
Python booleans map to Bool, nullable results to Option, HTTP
exceptions and unhandled Python faults to an explicit response type.
-/

/-- User record: identifier, name, email, is_company flag.  The password
credential is handled outside this core and is omitted. -/
structure User where
  id : Nat
  name : String
  email : String
  is_company : Bool
  deriving Repr, DecidableEq

/-- Persisted job row: identifier, owning user identifier, title,
description, salary range, is_active flag. -/
structure StoredJob where
  id : Nat
  user_id : Nat
  title : String
  description : String
  salary_from : Int
  salary_to : Int
  is_active : Bool
  deriving Repr, DecidableEq

/-- Request body schema SJob: the job fields a client sends
(title, description, salary_from, salary_to, is_active). -/
structure SJob where
  title : String
  description : String
  salary_from : Int
  salary_to : Int
  is_active : Bool
  deriving Repr, DecidableEq

/-- Domain schema DMJob as built by the handlers: the create path sets
user_id and no id, the edit path sets id and no user_id. -/
structure DMJob where
  id : Option Nat
  user_id : Option Nat
  title : String
  description : String
  salary_from : Int
  salary_to : Int
  is_active : Bool
  deriving Repr, DecidableEq

/-- Response schema of DELETE: an identifier and a human-readable message. -/
structure SRemoveJobReport where
  id : Nat
  message : String
  deriving Repr, DecidableEq

/-- An HTTPException as raised by the handlers: status code and detail. -/
structure HttpError where
  status_code : Nat
  detail : String
  deriving Repr, DecidableEq

/-- Outcome of one handler call: a 200 response with a serialized body,
an HTTPException with an explicit status code, or an unhandled Python
fault (for example an AttributeError on a None lookup) that propagates
past the handler. -/
inductive HResp (α : Type) where
  | ok : α → HResp α
  | httpError : Nat → String → HResp α
  | fault : String → HResp α
  deriving Repr, DecidableEq

/-- HTTP status carried by a handler outcome; an unhandled fault has no
status of its own (the framework default error handler takes over). -/
def HResp.statusCode : HResp α → Option Nat
  | .ok _ => some 200
  | .httpError c _ => some c
  | .fault _ => none

/-- Token payload: exposes a subject claim that may be absent
(payload.get of the key sub in the Python source). -/
structure Payload where
  sub : Option String
  deriving Repr, DecidableEq

/-- The jobs table together with the identifier generator state. -/
structure JobStore where
  jobs : List StoredJob
  next_id : Nat
  deriving Repr, DecidableEq

/-- The empty jobs table. -/
def emptyStore : JobStore := { jobs := [], next_id := 0 }

namespace user_queries

/-- Modelled from the spec: get_by_email queries the store for a user
whose email field equals the input exactly, returning absence on no
match (section 4.2); the user table is a list, searched in order. -/
def get_by_email (db : List User) (email : String) : Option User :=
  db.find? (fun u => u.email == email)

end user_queries

/-- The shared credentials exception of get_current_user: HTTP 403 with
the fixed detail string. -/
def cred_exception : HttpError :=
  { status_code := 403, detail := "Credentials не валидны" }

/-- Translation of get_current_user
(src/applications/dependencies/user.py).  The token codec is passed as
a function parameter since core.security is not among the sources; the
absent-token case is the JWTBearer dependency, modelled from the spec
(section 4.3: token absent collapses to the same error).  The four
failure cases all raise cred_exception; success returns the user found
by email. -/
def get_current_user (decode_token : String → Option Payload)
    (db : List User) : Option String → Except HttpError User
  | none => .error cred_exception
  | some tok =>
    match decode_token tok with
    | none => .error cred_exception
    | some payload =>
      match payload.sub with
      | none => .error cred_exception
      | some email =>
        match user_queries.get_by_email db email with
        | none => .error cred_exception
        | some user => .ok user

namespace RepoJob

/-- Modelled from the spec: add inserts a new record and returns the
persisted representation including the generated identifier
(section 4.4); the identifier comes from the store counter. -/
def add (st : JobStore) (dm : DMJob) : StoredJob × JobStore :=
  let j : StoredJob :=
    { id := st.next_id
      user_id := dm.user_id.getD 0
      title := dm.title
      description := dm.description
      salary_from := dm.salary_from
      salary_to := dm.salary_to
      is_active := dm.is_active }
  (j, { jobs := st.jobs ++ [j], next_id := st.next_id + 1 })

/-- Modelled from the spec: get_all returns every job row, no filtering
or pagination (section 4.4). -/
def get_all (st : JobStore) : List StoredJob := st.jobs

/-- Modelled from the spec: get_by_id returns the row matching the
identifier, or absence when no row matches (sections 4.4 and 7: the
handlers receive a null on a missing id). -/
def get_by_id (st : JobStore) (id : Nat) : Option StoredJob :=
  st.jobs.find? (fun j => j.id == id)

/-- Overwrite the mutable fields of a row from a DMJob, keeping the
identifier and the owning user identifier. -/
def overwrite (dm : DMJob) (j : StoredJob) : StoredJob :=
  { j with
    title := dm.title
    description := dm.description
    salary_from := dm.salary_from
    salary_to := dm.salary_to
    is_active := dm.is_active }

/-- Modelled from the spec: update overwrites the mutable fields
(title, description, salary range, is_active) of the row matching the
given identifier and returns the updated record (section 4.4); absence
is returned when no row matches. -/
def update (st : JobStore) (dm : DMJob) : Option StoredJob × JobStore :=
  let tid := dm.id.getD 0
  let newJobs := st.jobs.map fun j => if j.id == tid then overwrite dm j else j
  (newJobs.find? (fun j => j.id == tid), { st with jobs := newJobs })

/-- Modelled from the spec: del_by_id removes the row and returns the
identifier removed (section 4.4). -/
def del_by_id (st : JobStore) (id : Nat) : Nat × JobStore :=
  (id, { st with jobs := st.jobs.filter (fun j => ¬ j.id = id) })

end RepoJob

/-- Translation of convert_job_schema_to_dm as used by place_job: builds
the domain object from the authenticated user identifier and the body
schema (the body itself carries no user identifier). -/
def convert_job_schema_to_dm (uid : Nat) (s : SJob) : DMJob :=
  { id := none
    user_id := some uid
    title := s.title
    description := s.description
    salary_from := s.salary_from
    salary_to := s.salary_to
    is_active := s.is_active }

/-- Translation of place_job (POST /job): a company user gets the job
inserted and the persisted representation back; anyone else gets HTTP
405 with a message embedding the user name, and the store is untouched. -/
def place_job (job_in_schema : SJob) (current_user : User) (st : JobStore) :
    HResp StoredJob × JobStore :=
  if current_user.is_company then
    let job_dm := convert_job_schema_to_dm current_user.id job_in_schema
    let (res, st') := RepoJob.add st job_dm
    (.ok res, st')
  else
    (.httpError 405
      ("Пользователю " ++ current_user.name ++
        ", не являющемуся компанией, не разрешено создавать вакансии"), st)

/-- Translation of read_vacancies (GET /job/jobs): no authentication
dependency is declared, so the handler takes no user or token; it
returns every row of the jobs table. -/
def read_vacancies (st : JobStore) : HResp (List StoredJob) × JobStore :=
  (.ok (RepoJob.get_all st), st)

/-- Detail string of the 405 raised by edit_job. -/
def editDeniedMsg (current_user : User) (job_id : Nat) : String :=
  "Пользователь " ++ current_user.name ++ " не является автором вакансии " ++
    toString job_id ++ ", поэтому не может ее редактировать"

/-- Translation of edit_job (PUT /job/job_id).  The result of get_by_id
is used unguarded: on a missing row the attribute access
job_to_edit.user_id raises an unhandled AttributeError, modelled as a
fault.  An owner gets the row updated through RepoJob.update; a
non-owner gets HTTP 405. -/
def edit_job (job_id : Nat) (job_in_schema : SJob) (current_user : User)
    (st : JobStore) : HResp StoredJob × JobStore :=
  match RepoJob.get_by_id st job_id with
  | none => (.fault "AttributeError: NoneType has no attribute user_id", st)
  | some job_to_edit =>
    if job_to_edit.user_id == current_user.id then
      let job_schema : DMJob :=
        { id := some job_id
          user_id := none
          title := job_in_schema.title
          description := job_in_schema.description
          salary_from := job_in_schema.salary_from
          salary_to := job_in_schema.salary_to
          is_active := job_in_schema.is_active }
      match RepoJob.update st job_schema with
      | (some updated_job, st') => (.ok updated_job, st')
      | (none, st') => (.fault "update returned no record", st')
    else
      (.httpError 405 (editDeniedMsg current_user job_id), st)

/-- Detail string of the 400 raised by delete_job. -/
def deleteDeniedMsg (job_id : Nat) (current_user : User) : String :=
  "Вакансия " ++ toString job_id ++
    " не была удалена; либо она не найдена, либо удаляющий пользователь " ++
    current_user.name ++ " не является ее автором"

/-- Translation of delete_job (DELETE /job/job_id).  The condition of
the Python source is current_user.is_company and job_to_del.user_id ==
current_user.id, with short-circuit evaluation: when the row is missing
and is_company is true the attribute access on None raises an unhandled
AttributeError (a fault); when is_company is false the conjunction is
false without touching the row, so the 400 branch runs. -/
def delete_job (job_id : Nat) (current_user : User) (st : JobStore) :
    HResp SRemoveJobReport × JobStore :=
  match RepoJob.get_by_id st job_id with
  | some job_to_del =>
    if current_user.is_company && (job_to_del.user_id == current_user.id) then
      let (result, st') := RepoJob.del_by_id st job_id
      (.ok { id := job_id, message := "Вакансия " ++ toString result ++ " удалена" }, st')
    else
      (.httpError 400 (deleteDeniedMsg job_id current_user), st)
  | none =>
    if current_user.is_company then
      (.fault "AttributeError: NoneType has no attribute user_id", st)
    else
      (.httpError 400 (deleteDeniedMsg job_id current_user), st)

/-- Stores reachable from the empty table by handler calls made by
authenticated users drawn from a fixed user table db (the user table is
never mutated by this core). -/
inductive Reachable (db : List User) : JobStore → Prop where
  | init : Reachable db emptyStore
  | place (u : User) (hu : u ∈ db) (inp : SJob) {st : JobStore} :
      Reachable db st → Reachable db (place_job inp u st).2
  | edit (u : User) (hu : u ∈ db) (jid : Nat) (inp : SJob) {st : JobStore} :
      Reachable db st → Reachable db (edit_job jid inp u st).2
  | del (u : User) (hu : u ∈ db) (jid : Nat) {st : JobStore} :
      Reachable db st → Reachable db (delete_job jid u st).2

/-- C1: each of the four authentication failure cases (token absent,
token fails to decode, payload lacks a subject claim, no user matches
the subject email) raises the same HttpError with status 403 and the
same detail string, with no distinction between the cases; when none of
the cases holds, get_current_user returns the user whose email equals
the subject claim of the token. -/
theorem get_current_user_spec (decode_token : String → Option Payload)
    (db : List User) :
    cred_exception = { status_code := 403, detail := "Credentials не валидны" } ∧
    get_current_user decode_token db none = .error cred_exception ∧
    (∀ t, decode_token t = none →
      get_current_user decode_token db (some t) = .error cred_exception) ∧
    (∀ t p, decode_token t = some p → p.sub = none →
      get_current_user decode_token db (some t) = .error cred_exception) ∧
    (∀ t p e, decode_token t = some p → p.sub = some e →
      user_queries.get_by_email db e = none →
      get_current_user decode_token db (some t) = .error cred_exception) ∧
    (∀ t p e u, decode_token t = some p → p.sub = some e →
      user_queries.get_by_email db e = some u →
      get_current_user decode_token db (some t) = .ok u ∧ u.email = e) := by
  refine ⟨rfl, rfl, ?_, ?_, ?_, ?_⟩
  · intro t h1
    simp [get_current_user, h1]
  · intro t p h1 h2
    simp [get_current_user, h1, h2]
  · intro t p e h1 h2 h3
    simp [get_current_user, h1, h2, h3]
  · intro t p e u h1 h2 h3
    refine ⟨by simp [get_current_user, h1, h2, h3], ?_⟩
    have hfind : db.find? (fun x => x.email == e) = some u := h3
    have hbeq : (u.email == e) = true := by
      simpa using List.find?_some hfind
    exact eq_of_beq hbeq

/-- Witness for C1: a concrete token resolving to a concrete user, and
a concrete token that fails to decode. -/
theorem get_current_user_spec_witness :
    get_current_user (fun _ => some { sub := some "a@b" })
        [{ id := 1, name := "A", email := "a@b", is_company := true }] (some "tok")
      = .ok { id := 1, name := "A", email := "a@b", is_company := true } ∧
    get_current_user (fun _ => none)
        ([] : List User) (some "tok") = .error cred_exception :=
  ⟨((get_current_user_spec (fun _ => some { sub := some "a@b" })
      [{ id := 1, name := "A", email := "a@b", is_company := true }]).2.2.2.2.2
      "tok" _ "a@b" _ rfl rfl (by decide)).1,
   (get_current_user_spec (fun _ => none) []).2.2.1 "tok" rfl⟩

/-- C3: POST /job by a user whose is_company flag is false raises HTTP
405 with a message embedding the user name and leaves the jobs store
unchanged; for a company user the job is added to the store and the
persisted representation is returned. -/
theorem place_job_spec (inp : SJob) (u : User) (st : JobStore) :
    (u.is_company = false →
      place_job inp u st =
        (.httpError 405 ("Пользователю " ++ u.name ++
          ", не являющемуся компанией, не разрешено создавать вакансии"), st) ∧
      (place_job inp u st).2 = st) ∧
    (u.is_company = true →
      ∃ created,
        place_job inp u st =
          (.ok created, { jobs := st.jobs ++ [created], next_id := st.next_id + 1 }) ∧
        created.user_id = u.id ∧ created.title = inp.title ∧
        created.description = inp.description ∧
        created.salary_from = inp.salary_from ∧
        created.salary_to = inp.salary_to ∧
        created.is_active = inp.is_active) := by
  constructor
  · intro h
    simp [place_job, h]
  · intro h
    refine ⟨{ id := st.next_id, user_id := u.id, title := inp.title,
              description := inp.description, salary_from := inp.salary_from,
              salary_to := inp.salary_to, is_active := inp.is_active }, ?_⟩
    simp [place_job, h, RepoJob.add, convert_job_schema_to_dm]

/-- Witness for C3: a concrete non-company user is refused with 405 and
an untouched store; a concrete company user gets a persisted job. -/
theorem place_job_spec_witness :
    (place_job { title := "t", description := "d", salary_from := 1,
                 salary_to := 2, is_active := true }
       { id := 2, name := "B", email := "b@b", is_company := false }
       emptyStore =
      (.httpError 405 ("Пользователю " ++ "B" ++
        ", не являющемуся компанией, не разрешено создавать вакансии"),
        emptyStore)) ∧
    ∃ created,
      place_job { title := "t", description := "d", salary_from := 1,
                  salary_to := 2, is_active := true }
        { id := 1, name := "A", email := "a@b", is_company := true }
        emptyStore =
        (.ok created, { jobs := emptyStore.jobs ++ [created],
                        next_id := emptyStore.next_id + 1 }) ∧
      created.user_id = 1 ∧ created.title = "t" ∧ created.description = "d" ∧
      created.salary_from = 1 ∧ created.salary_to = 2 ∧ created.is_active = true :=
  ⟨((place_job_spec _ { id := 2, name := "B", email := "b@b", is_company := false }
      emptyStore).1 rfl).1,
   (place_job_spec _ { id := 1, name := "A", email := "a@b", is_company := true }
      emptyStore).2 rfl⟩

/-- C8: GET /job/jobs takes no authentication dependency (the handler
has no user or token input and always succeeds with status 200, while
an endpoint behind get_current_user rejects an absent token with 403),
and it returns exactly the persisted job rows, with no filtering or
pagination. -/
theorem read_vacancies_spec (st : JobStore) :
    read_vacancies st = (.ok st.jobs, st) ∧
    (read_vacancies st).1.statusCode = some 200 ∧
    (∀ j, j ∈ st.jobs ↔ ∃ l, (read_vacancies st).1 = .ok l ∧ j ∈ l) ∧
    (∀ decode_token db,
      get_current_user decode_token db none = .error cred_exception) := by
  refine ⟨rfl, rfl, ?_, fun _ _ => rfl⟩
  intro j
  constructor
  · intro hj
    exact ⟨st.jobs, rfl, hj⟩
  · rintro ⟨l, hl, hj⟩
    have : l = st.jobs := by
      simpa [read_vacancies, RepoJob.get_all] using hl.symm
    exact this ▸ hj

/-- Overwriting keeps the row identifier. -/
theorem RepoJob.overwrite_id (dm : DMJob) (j : StoredJob) :
    (RepoJob.overwrite dm j).id = j.id := rfl

/-- Overwriting keeps the owning user identifier. -/
theorem RepoJob.overwrite_user_id (dm : DMJob) (j : StoredJob) :
    (RepoJob.overwrite dm j).user_id = j.user_id := rfl

/-- Searching the overwritten table for the target identifier finds the
overwritten image of the first original match. -/
theorem find?_map_overwrite (dm : DMJob) (tid : Nat) (l : List StoredJob) :
    (l.map fun j => if j.id == tid then RepoJob.overwrite dm j else j).find?
        (fun j => j.id == tid)
      = (l.find? (fun j => j.id == tid)).map (RepoJob.overwrite dm) := by
  induction l with
  | nil => rfl
  | cons a l ih =>
    by_cases h : a.id = tid
    · have hb : (a.id == tid) = true := beq_iff_eq.mpr h
      have hfb : ((RepoJob.overwrite dm a).id == tid) = true := by
        rw [RepoJob.overwrite_id]; exact hb
      simp only [List.map_cons, hb, if_true]
      rw [List.find?_cons_of_pos (p := fun j : StoredJob => j.id == tid) _ hfb,
        List.find?_cons_of_pos (p := fun j : StoredJob => j.id == tid) _ hb,
        Option.map_some']
    · have hb : (a.id == tid) = false := by
        simpa using h
      have hnb : ¬ ((a.id == tid) = true) := by
        simp [hb]
      simp only [List.map_cons, hb, Bool.false_eq_true, if_false]
      rw [List.find?_cons_of_neg (p := fun j : StoredJob => j.id == tid) _ hnb,
        List.find?_cons_of_neg (p := fun j : StoredJob => j.id == tid) _ hnb, ih]

/-- Update of a present row: the returned record is the overwritten row
and the table is mapped pointwise. -/
theorem RepoJob.update_found (st : JobStore) (dm : DMJob) (jid : Nat)
    (job : StoredJob) (hdm : dm.id = some jid)
    (hjob : RepoJob.get_by_id st jid = some job) :
    RepoJob.update st dm =
      (some (RepoJob.overwrite dm job),
        { st with jobs := st.jobs.map fun j =>
            if j.id == jid then RepoJob.overwrite dm j else j }) := by
  have hfind : st.jobs.find? (fun j => j.id == jid) = some job := hjob
  unfold RepoJob.update
  simp only [hdm, Option.getD_some]
  rw [find?_map_overwrite, hfind]
  rfl

/-- The domain object built by edit_job from the path identifier and the
request body (user_id is not part of it). -/
def edit_dm (job_id : Nat) (s : SJob) : DMJob :=
  { id := some job_id
    user_id := none
    title := s.title
    description := s.description
    salary_from := s.salary_from
    salary_to := s.salary_to
    is_active := s.is_active }

/-- Equation for the owner path of edit_job: the handler returns the
overwritten record and stores the pointwise-updated table. -/
theorem edit_job_of_owner (jid : Nat) (inp : SJob) (u : User) (st : JobStore)
    (job : StoredJob) (hjob : RepoJob.get_by_id st jid = some job)
    (hown : job.user_id = u.id) :
    edit_job jid inp u st =
      (.ok (RepoJob.overwrite (edit_dm jid inp) job),
        { st with jobs := st.jobs.map fun j =>
            if j.id == jid then RepoJob.overwrite (edit_dm jid inp) j else j }) := by
  have hb : (job.user_id == u.id) = true := beq_iff_eq.mpr hown
  have hupd := RepoJob.update_found st (edit_dm jid inp) jid job rfl hjob
  simp only [edit_dm] at hupd
  simp [edit_job, hjob, hb, hupd, edit_dm]

/-- C4: PUT /job/job_id by a user who is not the owner of the persisted
job raises HTTP 405 with a message embedding the user name and the job
id, leaving the store unchanged; for the owner the row is updated and
the updated record is returned with status 200. -/
theorem edit_job_spec (jid : Nat) (inp : SJob) (u : User) (st : JobStore)
    (job : StoredJob) (hjob : RepoJob.get_by_id st jid = some job) :
    (job.user_id ≠ u.id →
      edit_job jid inp u st = (.httpError 405 (editDeniedMsg u jid), st)) ∧
    (job.user_id = u.id →
      ∃ updated,
        (edit_job jid inp u st).1 = .ok updated ∧
        (edit_job jid inp u st).1.statusCode = some 200 ∧
        updated.id = job.id ∧ updated.user_id = job.user_id ∧
        updated.title = inp.title ∧ updated.description = inp.description ∧
        updated.salary_from = inp.salary_from ∧
        updated.salary_to = inp.salary_to ∧
        updated.is_active = inp.is_active ∧
        RepoJob.get_by_id (edit_job jid inp u st).2 jid = some updated) := by
  constructor
  · intro h
    have hb : (job.user_id == u.id) = false := by simpa using h
    simp [edit_job, hjob, hb]
  · intro h
    have he := edit_job_of_owner jid inp u st job hjob h
    refine ⟨RepoJob.overwrite (edit_dm jid inp) job,
      by rw [he], by rw [he]; rfl, rfl, rfl, rfl, rfl, rfl, rfl, rfl, ?_⟩
    rw [he]
    show (st.jobs.map fun j =>
        if j.id == jid then RepoJob.overwrite (edit_dm jid inp) j else j).find?
        (fun j => j.id == jid) = _
    rw [find?_map_overwrite (edit_dm jid inp) jid st.jobs]
    have hfind : st.jobs.find? (fun j => j.id == jid) = some job := hjob
    rw [hfind]
    rfl

/-- Concrete company user for witnesses. -/
def userA : User := { id := 1, name := "A", email := "a@b", is_company := true }

/-- Concrete non-company user for witnesses. -/
def userB : User := { id := 2, name := "B", email := "b@b", is_company := false }

/-- Concrete persisted job for witnesses. -/
def jobSeven : StoredJob :=
  { id := 7, user_id := 1, title := "Backend Engineer", description := "d",
    salary_from := 100000, salary_to := 150000, is_active := true }

/-- Concrete store holding jobSeven. -/
def storeSeven : JobStore := { jobs := [jobSeven], next_id := 8 }

/-- Concrete edit body for witnesses. -/
def sjobIn : SJob :=
  { title := "Backend Engineer", description := "d2", salary_from := 100000,
    salary_to := 150000, is_active := false }

/-- Witness for C4: the owner of jobSeven successfully edits it. -/
theorem edit_job_spec_witness :
    RepoJob.get_by_id storeSeven 7 = some jobSeven ∧
    jobSeven.user_id = userA.id ∧
    ∃ updated,
      (edit_job 7 sjobIn userA storeSeven).1 = .ok updated ∧
      (edit_job 7 sjobIn userA storeSeven).1.statusCode = some 200 ∧
      updated.id = jobSeven.id ∧ updated.user_id = jobSeven.user_id ∧
      updated.title = sjobIn.title ∧ updated.description = sjobIn.description ∧
      updated.salary_from = sjobIn.salary_from ∧
      updated.salary_to = sjobIn.salary_to ∧
      updated.is_active = sjobIn.is_active ∧
      RepoJob.get_by_id (edit_job 7 sjobIn userA storeSeven).2 7 = some updated :=
  ⟨by decide, rfl,
    (edit_job_spec 7 sjobIn userA storeSeven jobSeven (by decide)).2 rfl⟩

/-- C7: a successful edit maps the table pointwise: every row keeps its
identifier and owning user identifier, rows with a different identifier
are unchanged, and the matching row gets exactly the new mutable fields;
the identifier generator is untouched. -/
theorem edit_job_frame (jid : Nat) (inp : SJob) (u : User) (st : JobStore)
    (job : StoredJob) (hjob : RepoJob.get_by_id st jid = some job)
    (hown : job.user_id = u.id) :
    (edit_job jid inp u st).2.next_id = st.next_id ∧
    List.Forall₂ (fun new old =>
        new.id = old.id ∧ new.user_id = old.user_id ∧
        (old.id ≠ jid → new = old) ∧
        (old.id = jid →
          new.title = inp.title ∧ new.description = inp.description ∧
          new.salary_from = inp.salary_from ∧ new.salary_to = inp.salary_to ∧
          new.is_active = inp.is_active))
      (edit_job jid inp u st).2.jobs st.jobs := by
  have he := edit_job_of_owner jid inp u st job hjob hown
  rw [he]
  refine ⟨rfl, ?_⟩
  rw [List.forall₂_map_left_iff, List.forall₂_same]
  intro a ha
  by_cases h : a.id = jid
  · have hb : (a.id == jid) = true := beq_iff_eq.mpr h
    simp [hb, RepoJob.overwrite, edit_dm, h]
  · have hb : (a.id == jid) = false := by simpa using h
    simp [hb, h]

/-- Witness for C7: the frame property at the concrete one-row store. -/
theorem edit_job_frame_witness :
    RepoJob.get_by_id storeSeven 7 = some jobSeven ∧
    jobSeven.user_id = userA.id ∧
    ((edit_job 7 sjobIn userA storeSeven).2.next_id = storeSeven.next_id ∧
      List.Forall₂ (fun new old =>
          new.id = old.id ∧ new.user_id = old.user_id ∧
          (old.id ≠ 7 → new = old) ∧
          (old.id = 7 →
            new.title = sjobIn.title ∧ new.description = sjobIn.description ∧
            new.salary_from = sjobIn.salary_from ∧
            new.salary_to = sjobIn.salary_to ∧
            new.is_active = sjobIn.is_active))
        (edit_job 7 sjobIn userA storeSeven).2.jobs storeSeven.jobs) :=
  ⟨by decide, rfl,
    edit_job_frame 7 sjobIn userA storeSeven jobSeven (by decide) rfl⟩

/-- Searching a list purged of an identifier for that identifier finds
nothing. -/
theorem find?_filter_ne (l : List StoredJob) (jid : Nat) :
    (l.filter (fun j => ¬ j.id = jid)).find? (fun j => j.id == jid) = none := by
  rw [List.find?_eq_none]
  intro x hx
  have hmem := List.of_mem_filter hx
  simp at hmem ⊢
  exact hmem

/-- Equation for the owning-company path of delete_job. -/
theorem delete_job_owner_eq (jid : Nat) (u : User) (st : JobStore)
    (job : StoredJob) (hjob : RepoJob.get_by_id st jid = some job)
    (hc : u.is_company = true) (hown : job.user_id = u.id) :
    delete_job jid u st =
      (.ok { id := jid, message := "Вакансия " ++ toString jid ++ " удалена" },
        { st with jobs := st.jobs.filter (fun j => ¬ j.id = jid) }) := by
  have hb : (u.is_company && (job.user_id == u.id)) = true := by
    simp [hc, hown]
  simp [delete_job, hjob, hb, RepoJob.del_by_id]

/-- C5: DELETE /job/job_id by a company user who owns the job returns
status 200 with a report echoing the same id and the message, and no
row with that identifier remains in the store. -/
theorem delete_job_owner_spec (jid : Nat) (u : User) (st : JobStore)
    (job : StoredJob) (hjob : RepoJob.get_by_id st jid = some job)
    (hc : u.is_company = true) (hown : job.user_id = u.id) :
    (delete_job jid u st).1 =
      .ok { id := jid, message := "Вакансия " ++ toString jid ++ " удалена" } ∧
    (delete_job jid u st).1.statusCode = some 200 ∧
    RepoJob.get_by_id (delete_job jid u st).2 jid = none ∧
    ∀ j ∈ (delete_job jid u st).2.jobs, j.id ≠ jid := by
  have hd := delete_job_owner_eq jid u st job hjob hc hown
  refine ⟨by rw [hd], by rw [hd]; rfl, ?_, ?_⟩
  · rw [hd]
    exact find?_filter_ne st.jobs jid
  · rw [hd]
    intro j hj
    have hmem := List.of_mem_filter hj
    simpa using hmem

/-- Witness for C5: userA deletes jobSeven from the one-row store. -/
theorem delete_job_owner_spec_witness :
    RepoJob.get_by_id storeSeven 7 = some jobSeven ∧
    userA.is_company = true ∧ jobSeven.user_id = userA.id ∧
    ((delete_job 7 userA storeSeven).1 =
        .ok { id := 7, message := "Вакансия " ++ toString 7 ++ " удалена" } ∧
      (delete_job 7 userA storeSeven).1.statusCode = some 200 ∧
      RepoJob.get_by_id (delete_job 7 userA storeSeven).2 7 = none ∧
      ∀ j ∈ (delete_job 7 userA storeSeven).2.jobs, j.id ≠ 7) :=
  ⟨by decide, rfl, rfl,
    delete_job_owner_spec 7 userA storeSeven jobSeven (by decide) rfl rfl⟩

/-- C6: on a DELETE request for a persisted job, HTTP 400 is raised
exactly when the caller is not an owning company, and in that case the
store is unchanged and the row stays persisted. -/
theorem delete_job_denied_spec (jid : Nat) (u : User) (st : JobStore)
    (job : StoredJob) (hjob : RepoJob.get_by_id st jid = some job) :
    ((delete_job jid u st).1 = .httpError 400 (deleteDeniedMsg jid u) ↔
      ¬ (u.is_company = true ∧ job.user_id = u.id)) ∧
    (¬ (u.is_company = true ∧ job.user_id = u.id) →
      (delete_job jid u st).2 = st ∧
      RepoJob.get_by_id (delete_job jid u st).2 jid = some job) := by
  by_cases hb : (u.is_company && (job.user_id == u.id)) = true
  · rw [Bool.and_eq_true] at hb
    obtain ⟨h1, h2⟩ := hb
    have h2' : job.user_id = u.id := eq_of_beq h2
    refine ⟨⟨?_, ?_⟩, ?_⟩
    · intro hfalse
      have hd := delete_job_owner_eq jid u st job hjob h1 h2'
      rw [hd] at hfalse
      exact absurd hfalse (by simp)
    · intro hn
      exact absurd ⟨h1, h2'⟩ hn
    · intro hn
      exact absurd ⟨h1, h2'⟩ hn
  · have hbf : (u.is_company && (job.user_id == u.id)) = false := by
      simpa using hb
    have hres : delete_job jid u st = (.httpError 400 (deleteDeniedMsg jid u), st) := by
      simp [delete_job, hjob, hbf]
    have hnand : ¬ (u.is_company = true ∧ job.user_id = u.id) := by
      rintro ⟨h1, h2⟩
      exact hb (by simp [h1, h2])
    exact ⟨⟨fun _ => hnand, fun _ => by rw [hres]⟩,
      fun _ => ⟨by rw [hres], by rw [hres]; exact hjob⟩⟩

/-- Witness for C6: the non-company user userB is refused with 400 and
jobSeven stays persisted. -/
theorem delete_job_denied_spec_witness :
    RepoJob.get_by_id storeSeven 7 = some jobSeven ∧
    (((delete_job 7 userB storeSeven).1 =
        .httpError 400 (deleteDeniedMsg 7 userB) ↔
      ¬ (userB.is_company = true ∧ jobSeven.user_id = userB.id)) ∧
    (¬ (userB.is_company = true ∧ jobSeven.user_id = userB.id) →
      (delete_job 7 userB storeSeven).2 = storeSeven ∧
      RepoJob.get_by_id (delete_job 7 userB storeSeven).2 7 = some jobSeven)) :=
  ⟨by decide, delete_job_denied_spec 7 userB storeSeven jobSeven (by decide)⟩

/-- C2 counterexample: a DELETE of an absent job id by a non-company
user does not propagate a fault: the short-circuit of the Python
conjunction never touches the absent row and the 400 branch answers. -/
theorem delete_job_missing_noncompany_no_fault :
    RepoJob.get_by_id emptyStore 7 = none ∧
    delete_job 7 userB emptyStore =
      (.httpError 400 (deleteDeniedMsg 7 userB), emptyStore) ∧
    ∀ s, (delete_job 7 userB emptyStore).1 ≠ .fault s := by
  refine ⟨rfl, rfl, ?_⟩
  intro s h
  exact HResp.noConfusion h

/-- C2 (amended): on an absent job id, edit always propagates an
unhandled fault; delete propagates a fault when the caller is a company
and answers 400 when not; neither handler returns a 404. -/
theorem edit_delete_missing_spec (jid : Nat) (inp : SJob) (u : User)
    (st : JobStore) (hjob : RepoJob.get_by_id st jid = none) :
    edit_job jid inp u st =
      (.fault "AttributeError: NoneType has no attribute user_id", st) ∧
    (u.is_company = true →
      delete_job jid u st =
        (.fault "AttributeError: NoneType has no attribute user_id", st)) ∧
    (u.is_company = false →
      delete_job jid u st = (.httpError 400 (deleteDeniedMsg jid u), st)) ∧
    (∀ d, (edit_job jid inp u st).1 ≠ .httpError 404 d) ∧
    (∀ d, (delete_job jid u st).1 ≠ .httpError 404 d) := by
  refine ⟨by simp [edit_job, hjob], ?_, ?_, ?_, ?_⟩
  · intro hc
    simp [delete_job, hjob, hc]
  · intro hc
    simp [delete_job, hjob, hc]
  · intro d h
    simp [edit_job, hjob] at h
  · intro d h
    cases hc : u.is_company <;> simp [delete_job, hjob, hc] at h

/-- Witness for C2 (amended): on the empty store, edit by userA faults,
delete by userA faults, and delete by userB answers 400. -/
theorem edit_delete_missing_spec_witness :
    RepoJob.get_by_id emptyStore 7 = none ∧
    edit_job 7 sjobIn userA emptyStore =
      (.fault "AttributeError: NoneType has no attribute user_id", emptyStore) ∧
    delete_job 7 userA emptyStore =
      (.fault "AttributeError: NoneType has no attribute user_id", emptyStore) ∧
    delete_job 7 userB emptyStore =
      (.httpError 400 (deleteDeniedMsg 7 userB), emptyStore) :=
  ⟨rfl,
    (edit_delete_missing_spec 7 sjobIn userA emptyStore rfl).1,
    (edit_delete_missing_spec 7 sjobIn userA emptyStore rfl).2.1 rfl,
    (edit_delete_missing_spec 7 sjobIn userB emptyStore rfl).2.2.1 rfl⟩

/-- The row that place_job persists for a company user. -/
def mkJob (jid uid : Nat) (s : SJob) : StoredJob :=
  { id := jid
    user_id := uid
    title := s.title
    description := s.description
    salary_from := s.salary_from
    salary_to := s.salary_to
    is_active := s.is_active }

/-- Equation for the company path of place_job. -/
theorem place_job_company_eq (inp : SJob) (u : User) (st : JobStore)
    (hc : u.is_company = true) :
    place_job inp u st =
      (.ok (mkJob st.next_id u.id inp),
        { jobs := st.jobs ++ [mkJob st.next_id u.id inp],
          next_id := st.next_id + 1 }) := by
  simp [place_job, hc, RepoJob.add, convert_job_schema_to_dm, mkJob]

/-- The non-company path of place_job leaves the store untouched. -/
theorem place_job_noncompany_eq (inp : SJob) (u : User) (st : JobStore)
    (hc : u.is_company = false) :
    (place_job inp u st).2 = st := by
  simp [place_job, hc]

/-- Every row present after an edit descends from a row of the previous
store with the same identifier and the same owning user identifier. -/
theorem edit_job_store_jobs (jid : Nat) (inp : SJob) (u : User)
    (st : JobStore) (j : StoredJob)
    (hj : j ∈ (edit_job jid inp u st).2.jobs) :
    ∃ j0, j0 ∈ st.jobs ∧ j.user_id = j0.user_id ∧ j.id = j0.id := by
  cases hfind : RepoJob.get_by_id st jid with
  | none =>
    have hst : (edit_job jid inp u st).2 = st := by
      simp [edit_job, hfind]
    rw [hst] at hj
    exact ⟨j, hj, rfl, rfl⟩
  | some job =>
    by_cases hown : (job.user_id == u.id) = true
    · have he := edit_job_of_owner jid inp u st job hfind (eq_of_beq hown)
      rw [he] at hj
      simp only [List.mem_map] at hj
      rcases hj with ⟨j0, hj0, hmap⟩
      refine ⟨j0, hj0, ?_, ?_⟩ <;>
        · rw [← hmap]
          by_cases h : (j0.id == jid) = true <;>
            simp [h, RepoJob.overwrite]
    · have hob : (job.user_id == u.id) = false := by
        simpa using hown
      have hst : (edit_job jid inp u st).2 = st := by
        simp [edit_job, hfind, hob]
      rw [hst] at hj
      exact ⟨j, hj, rfl, rfl⟩

/-- Every row present after a delete was present before. -/
theorem delete_job_store_jobs (jid : Nat) (u : User) (st : JobStore)
    (j : StoredJob) (hj : j ∈ (delete_job jid u st).2.jobs) :
    j ∈ st.jobs := by
  cases hfind : RepoJob.get_by_id st jid with
  | none =>
    cases hc : u.is_company <;> simp [delete_job, hfind, hc] at hj <;> exact hj
  | some job =>
    by_cases hb : (u.is_company && (job.user_id == u.id)) = true
    · have hst : (delete_job jid u st).2.jobs =
          st.jobs.filter (fun x => ¬ x.id = jid) := by
        simp [delete_job, hfind, hb, RepoJob.del_by_id]
      rw [hst] at hj
      exact List.mem_of_mem_filter hj
    · have hbf : (u.is_company && (job.user_id == u.id)) = false := by
        simpa using hb
      have hst : (delete_job jid u st).2 = st := by
        simp [delete_job, hfind, hbf]
      rw [hst] at hj
      exact hj

/-- C9: a job placed through POST gets its owning user_id from the
authenticated company user (the request body carries no user
identifier), and in every store reachable by handler calls from a fixed
user table, every persisted row is owned by a company user of that
table: the creation-time invariant is preserved by every operation. -/
theorem jobs_company_owned_spec :
    (∀ (inp : SJob) (u : User) (st : JobStore), u.is_company = true →
      place_job inp u st =
        (.ok (mkJob st.next_id u.id inp),
          { jobs := st.jobs ++ [mkJob st.next_id u.id inp],
            next_id := st.next_id + 1 }) ∧
      (mkJob st.next_id u.id inp).user_id = u.id) ∧
    (∀ (db : List User) (st : JobStore), Reachable db st →
      ∀ j ∈ st.jobs, ∃ u, u ∈ db ∧ u.is_company = true ∧ j.user_id = u.id) := by
  refine ⟨fun inp u st hc => ⟨place_job_company_eq inp u st hc, rfl⟩, ?_⟩
  intro db st h
  induction h with
  | init =>
    intro j hj
    simp [emptyStore] at hj
  | place u hu inp h ih =>
    intro j hj
    by_cases hc : u.is_company = true
    · rw [place_job_company_eq _ _ _ hc] at hj
      simp only [List.mem_append, List.mem_singleton] at hj
      rcases hj with h1 | h1
      · exact ih j h1
      · exact ⟨u, hu, hc, by rw [h1]; rfl⟩
    · have hcf : u.is_company = false := by simpa using hc
      rw [place_job_noncompany_eq _ _ _ hcf] at hj
      exact ih j hj
  | edit u hu jid inp h ih =>
    intro j hj
    rcases edit_job_store_jobs jid inp u _ j hj with ⟨j0, hj0, huid, _⟩
    rcases ih j0 hj0 with ⟨w, hw, hwc, hwid⟩
    exact ⟨w, hw, hwc, by rw [huid, hwid]⟩
  | del u hu jid h ih =>
    intro j hj
    exact ih j (delete_job_store_jobs jid u _ j hj)

/-- Witness for C9: one creation by the company user userA from the
empty store, with the invariant evaluated on the resulting table. -/
theorem jobs_company_owned_spec_witness :
    (place_job sjobIn userA emptyStore =
        (.ok (mkJob emptyStore.next_id userA.id sjobIn),
          { jobs := emptyStore.jobs ++ [mkJob emptyStore.next_id userA.id sjobIn],
            next_id := emptyStore.next_id + 1 }) ∧
      (mkJob emptyStore.next_id userA.id sjobIn).user_id = userA.id) ∧
    (∀ j ∈ (place_job sjobIn userA emptyStore).2.jobs,
      ∃ u, u ∈ [userA] ∧ u.is_company = true ∧ j.user_id = u.id) :=
  ⟨jobs_company_owned_spec.1 sjobIn userA emptyStore rfl,
    jobs_company_owned_spec.2 [userA] _
      (Reachable.place userA (List.mem_singleton.mpr rfl) sjobIn Reachable.init)⟩

/-- Searching an appended list when nothing in the front part matches
reduces to searching the back part. -/
theorem find?_append_right {α : Type} (p : α → Bool) (l1 l2 : List α)
    (h : ∀ a ∈ l1, ¬ p a = true) :
    (l1 ++ l2).find? p = l2.find? p := by
  induction l1 with
  | nil => rfl
  | cons a l ih =>
    rw [List.cons_append, List.find?_cons_of_neg _ (h a (List.mem_cons_self a l))]
    exact ih (fun x hx => h x (List.mem_cons_of_mem a hx))

/-- C10: for a job accepted by POST from a company user, into a store
whose rows all have identifiers below the generator counter (true of
every reachable store), get_by_id at the generated identifier right
after the add returns a record equal in all fields to the inserted job. -/
theorem add_get_by_id_spec (inp : SJob) (u : User) (st : JobStore)
    (hc : u.is_company = true)
    (hfresh : ∀ j ∈ st.jobs, j.id < st.next_id) :
    ∃ created,
      (place_job inp u st).1 = .ok created ∧
      RepoJob.get_by_id (place_job inp u st).2 created.id = some created ∧
      created.user_id = u.id ∧ created.title = inp.title ∧
      created.description = inp.description ∧
      created.salary_from = inp.salary_from ∧
      created.salary_to = inp.salary_to ∧
      created.is_active = inp.is_active := by
  refine ⟨mkJob st.next_id u.id inp, ?_, ?_, rfl, rfl, rfl, rfl, rfl, rfl⟩
  · rw [place_job_company_eq inp u st hc]
  · rw [place_job_company_eq inp u st hc]
    show (st.jobs ++ [mkJob st.next_id u.id inp]).find?
        (fun j => j.id == (mkJob st.next_id u.id inp).id) = _
    rw [find?_append_right _ st.jobs _ ?hnone]
    · rw [List.find?_cons_of_pos _ (by simp [mkJob])]
    case hnone =>
      intro a ha
      have hlt := hfresh a ha
      simp only [mkJob]
      simp
      omega

/-- Witness for C10: userA posts a job into the empty store and reads
it back by the generated identifier. -/
theorem add_get_by_id_spec_witness :
    userA.is_company = true ∧
    (∀ j ∈ emptyStore.jobs, j.id < emptyStore.next_id) ∧
    ∃ created,
      (place_job sjobIn userA emptyStore).1 = .ok created ∧
      RepoJob.get_by_id (place_job sjobIn userA emptyStore).2 created.id =
        some created ∧
      created.user_id = userA.id ∧ created.title = sjobIn.title ∧
      created.description = sjobIn.description ∧
      created.salary_from = sjobIn.salary_from ∧
      created.salary_to = sjobIn.salary_to ∧
      created.is_active = sjobIn.is_active :=
  ⟨rfl, by decide,
    add_get_by_id_spec sjobIn userA emptyStore rfl (by decide)⟩

/-- Edits never touch the identifier generator. -/
theorem edit_job_next_id (jid : Nat) (inp : SJob) (u : User) (st : JobStore) :
    (edit_job jid inp u st).2.next_id = st.next_id := by
  cases hfind : RepoJob.get_by_id st jid with
  | none => simp [edit_job, hfind]
  | some job =>
    by_cases hown : (job.user_id == u.id) = true
    · rw [edit_job_of_owner jid inp u st job hfind (eq_of_beq hown)]
    · have hob : (job.user_id == u.id) = false := by simpa using hown
      simp [edit_job, hfind, hob]

/-- Deletes never touch the identifier generator. -/
theorem delete_job_next_id (jid : Nat) (u : User) (st : JobStore) :
    (delete_job jid u st).2.next_id = st.next_id := by
  cases hfind : RepoJob.get_by_id st jid with
  | none => cases hc : u.is_company <;> simp [delete_job, hfind, hc]
  | some job =>
    by_cases hb : (u.is_company && (job.user_id == u.id)) = true
    · simp [delete_job, hfind, hb, RepoJob.del_by_id]
    · have hbf : (u.is_company && (job.user_id == u.id)) = false := by
        simpa using hb
      simp [delete_job, hfind, hbf]

/-- In every reachable store all row identifiers lie below the
generator counter: the freshness hypothesis of the add round-trip holds
system-wide. -/
theorem reachable_fresh (db : List User) (st : JobStore)
    (h : Reachable db st) : ∀ j ∈ st.jobs, j.id < st.next_id := by
  induction h with
  | init =>
    intro j hj
    simp [emptyStore] at hj
  | place u hu inp h ih =>
    intro j hj
    by_cases hc : u.is_company = true
    · rw [place_job_company_eq _ _ _ hc] at hj ⊢
      simp only [List.mem_append, List.mem_singleton] at hj
      rcases hj with h1 | h1
      · exact Nat.lt_succ_of_lt (ih j h1)
      · rw [h1]
        exact Nat.lt_succ_self _
    · have hcf : u.is_company = false := by simpa using hc
      rw [place_job_noncompany_eq _ _ _ hcf] at hj ⊢
      exact ih j hj
  | edit u hu jid inp h ih =>
    intro j hj
    rcases edit_job_store_jobs jid inp u _ j hj with ⟨j0, hj0, _, hid⟩
    rw [edit_job_next_id, hid]
    exact ih j0 hj0
  | del u hu jid h ih =>
    intro j hj
    rw [delete_job_next_id]
    exact ih j (delete_job_store_jobs jid u _ j hj)
